import Mathlib

/-
  Verification development for the UPS-tracking Telegram bot (src/main.py).

  The payload data model mirrors the JSON shapes the code reads with `[...]`
  (raising on absence, modelled by `Except`) and `.get(...)` (defaulting,
  modelled by `Option`).  Machine-level concerns (HTTP transport, clock,
  process environment) enter as explicit parameters.
-/

namespace UPSTrack

/-- The `address` object read by `extract_location`: optional `city`,
`stateProvince`, `country` string fields. -/
structure Address where
  city : Option String
  stateProvince : Option String
  country : Option String
deriving DecidableEq, Repr

/-- The `activityLocation` object of one tracking event: optional nested
`address`, optional `locationTypeDescription`, optional `code`. -/
structure ActivityLocation where
  address : Option Address
  locationTypeDescription : Option String
  code : Option String
deriving DecidableEq, Repr

/-- The `status` object of one tracking event; `description` is read with
direct indexing in the source, so absence is a parse error (`Option` here,
turned into an error by `reduceTrack`). -/
structure StatusBlock where
  description : Option String
deriving DecidableEq, Repr

/-- One entry of the `activity` array (a tracking event). -/
structure Activity where
  activityLocation : Option ActivityLocation
  status : Option StatusBlock
deriving DecidableEq, Repr

/-- The `shipFrom` / `shipTo` objects: an optional nested `address`. -/
structure ShipNode where
  address : Option Address
deriving DecidableEq, Repr

/-- One entry of the `package` array; its `activity` key is read with direct
indexing in the source. -/
structure Package where
  activity : Option (List Activity)
deriving DecidableEq, Repr

/-- One entry of the `shipment` array. -/
structure ShipmentInfo where
  package : Option (List Package)
  shipFrom : Option ShipNode
  shipTo : Option ShipNode
deriving DecidableEq, Repr

/-- The `trackResponse` object. -/
structure TrackResponse where
  shipment : Option (List ShipmentInfo)
deriving DecidableEq, Repr

/-- A parsed response body of the tracking endpoint; the top-level
`trackResponse` key may be absent (src/main.py line 62). -/
structure TrackData where
  trackResponse : Option TrackResponse
deriving DecidableEq, Repr

/-- The empty address dict `{}` produced by `.get("address", {})`. -/
def emptyAddress : Address := ⟨none, none, none⟩

/-- The empty dict `{}` produced by `.get("activityLocation", {})`. -/
def emptyActivityLocation : ActivityLocation := ⟨none, none, none⟩

/-- Python truthiness of an optional string field: present and non-empty. -/
def present : Option String → Bool
  | none => false
  | some s => s ≠ ""

/-- The list of values appended for one optional field under Python's
`if value: loc_parts.append(value)`. -/
def truthyList : Option String → List String
  | none => []
  | some s => if s = "" then [] else [s]

/-- The parts appended by the loop `for key in ["city", "stateProvince",
"country"]` over one address (src/main.py lines 88-90 and 104-106, 110-112). -/
def addrParts (addr : Address) : List String :=
  truthyList addr.city ++ truthyList addr.stateProvince ++ truthyList addr.country

/-- `extract_location(activity, shipment=None)` (src/main.py lines 84-117):
builds `loc_parts` through the ordered sequence of `if not loc_parts` guards
and joins with `", "`. -/
def extract_location (activity : Activity) (shipment : Option ShipmentInfo := none) : String :=
  let actLoc := activity.activityLocation.getD emptyActivityLocation
  let parts0 := addrParts (actLoc.address.getD emptyAddress)
  let parts1 := if parts0.isEmpty then truthyList actLoc.locationTypeDescription else parts0
  let parts2 := if parts1.isEmpty then truthyList actLoc.code else parts1
  let parts3 := if parts2.isEmpty then
      (match shipment with
       | some sh => addrParts ((sh.shipFrom.bind ShipNode.address).getD emptyAddress)
       | none => []) else parts2
  let parts4 := if parts3.isEmpty then
      (match shipment with
       | some sh => addrParts ((sh.shipTo.bind ShipNode.address).getD emptyAddress)
       | none => []) else parts3
  let parts5 := if parts4.isEmpty then ["No location found"] else parts4
  String.intercalate ", " parts5

/-- The location-fallback chain exactly as the specification words it
(ordered steps, first present result wins): (1) present address fields joined
with `", "`; (2) the facility description if present; (3) the raw code if
present; (4) the origin address when shipment context is given; (5) the
destination address; (6) the sentinel.  Written from the spec, to be compared
with `extract_location`, which is written from the source. -/
def extractLocationSpec (activity : Activity) (shipment : Option ShipmentInfo) : String :=
  let actLoc := activity.activityLocation.getD emptyActivityLocation
  let direct := addrParts (actLoc.address.getD emptyAddress)
  if direct ≠ [] then String.intercalate ", " direct
  else if present actLoc.locationTypeDescription then actLoc.locationTypeDescription.getD ""
  else if present actLoc.code then actLoc.code.getD ""
  else
    match shipment with
    | some sh =>
      let fromParts := addrParts ((sh.shipFrom.bind ShipNode.address).getD emptyAddress)
      let toParts := addrParts ((sh.shipTo.bind ShipNode.address).getD emptyAddress)
      if fromParts ≠ [] then String.intercalate ", " fromParts
      else if toParts ≠ [] then String.intercalate ", " toParts
      else "No location found"
    | none => "No location found"

/-- The loop `for act in activities[1:]` (src/main.py lines 73-77): the first
extraction differing from the sentinel wins; if every extraction is the
sentinel (or there is no further event) the sentinel remains. -/
def locFromRest (acts : List Activity) (si : ShipmentInfo) : String :=
  match acts with
  | [] => "No location found"
  | a :: rest =>
    let location := extract_location a (some si)
    if location ≠ "No location found" then location else locFromRest rest si

/-- Location resolution of `get_tracking_status` (src/main.py lines 71-77):
extract from the latest event; on the sentinel, scan the remaining events. -/
def resolveLocation (latest : Activity) (rest : List Activity) (si : ShipmentInfo) : String :=
  let location := extract_location latest (some si)
  if location = "No location found" then locFromRest rest si else location

/-- The body of the `try` block of `get_tracking_status` (src/main.py lines
65-79): direct indexing steps that can raise, returning the raised exception's
text on the error side (KeyError renders as the quoted key, IndexError as
`list index out of range`). -/
def reduceTrack (tr : TrackResponse) : Except String (String × String) :=
  match tr.shipment with
  | none => .error "'shipment'"
  | some [] => .error "list index out of range"
  | some (si :: _) =>
    match si.package with
    | none => .error "'package'"
    | some [] => .error "list index out of range"
    | some (p0 :: _) =>
      match p0.activity with
      | none => .error "'activity'"
      | some [] => .error "list index out of range"
      | some (latest :: rest) =>
        match latest.status with
        | none => .error "'status'"
        | some sb =>
          match sb.description with
          | none => .error "'description'"
          | some desc => .ok (desc, resolveLocation latest rest si)

/-- Outcome of the HTTP GET for one shipment's detail request, as seen by
`get_tracking_status`: a parsed JSON body, or a non-success status code that
`raise_for_status()` turns into an exception (src/main.py lines 58-59). -/
inductive HttpResult where
  | ok (data : TrackData)
  | err (code : Nat)
deriving DecidableEq, Repr

/-- Whether the HTTP layer reported success for this fetch. -/
def HttpResult.isSuccess : HttpResult → Bool
  | .ok _ => true
  | .err _ => false

/-- `get_tracking_status` (src/main.py lines 51-82) after the request has
completed: `raise_for_status` propagates a non-success code (the `Except`
error, uncaught — the `try` starts only afterwards); a missing
`trackResponse` wrapper yields the sentinel snapshot; an exception inside the
`try` yields the `Error parsing` snapshot. -/
def get_tracking_status (r : HttpResult) : Except Nat (String × String) :=
  match r with
  | .err code => .error code
  | .ok data =>
    match data.trackResponse with
    | none => .ok ("No tracking info", "No location found")
    | some tr =>
      match reduceTrack tr with
      | .ok snap => .ok snap
      | .error e => .ok ("Error parsing: " ++ e, "No location found")

/-- One persisted per-shipment record: the value stored under a tracking
number in `last_status` / `ups_status.json` (src/main.py line 193). -/
structure Record where
  status : String
  location : String
  timestamp : String
deriving DecidableEq, Repr

/-- The `last_status` mapping, in insertion order (a Python dict keyed by
tracking number). -/
abbrev StateMap : Type := List (String × Record)

/-- `last_status.get(tracking, {})` followed by field access: dictionary
lookup by key. -/
def lookupRecord : StateMap → String → Option Record
  | [], _ => none
  | (k, v) :: rest, t => if k = t then some v else lookupRecord rest t

/-- `last_status[tracking] = {...}`: replace in place if the key exists
(keeping its position, as a Python dict does), else append. -/
def setRecord : StateMap → String → Record → StateMap
  | [], t, r => [(t, r)]
  | (k, v) :: rest, t, r => if k = t then (t, r) :: rest else (k, v) :: setRecord rest t r

/-- Outcome of the Telegram `sendMessage` POST as the environment produces
it: a response status code, or a transport exception. -/
inductive SendOutcome where
  | response (code : Nat)
  | exn (msg : String)
deriving DecidableEq, Repr

/-- `send_telegram` (src/main.py lines 123-137): every outcome is swallowed;
the returned flag records only whether the success branch printed — the
function never propagates a failure. -/
def send_telegram_ok : SendOutcome → Bool
  | .response code => code == 200
  | .exn _ => false

/-- `format_message` (src/main.py lines 143-149). -/
def format_message (nickname status location timestamp : String) : String :=
  String.intercalate "\n"
    ["📦 " ++ nickname, "Status: " ++ status, "Location: " ++ location,
     "Updated: " ++ timestamp]

/-- Nickname selection (src/main.py lines 157-161 and 180-184): the stripped
configured nickname at this index when present and non-blank, else the
stripped tracking number. -/
def nicknameFor (names : List String) (idx : Nat) (tracking : String) : String :=
  match names.get? idx with
  | some n => if n.trim = "" then tracking.trim else n.trim
  | none => tracking.trim

/-- Result of one poll pass.  `remaining` lists the shipments not evaluated
because an uncaught HTTP exception aborted the loop (the aborting shipment
first); `saved` records whether the final `json.dump` was reached; `log`
collects every Telegram notification attempted, with its delivery flag. -/
structure PassResult where
  state : StateMap
  log : List (String × Bool)
  remaining : List String
  abortCode : Option Nat
  saved : Bool
deriving Repr

/-- The `for idx, tracking in enumerate(TRACKING_NUMBERS)` loop of
`run_tracking` plus the final save (src/main.py lines 179-198).  An `.error`
from `get_tracking_status` is the uncaught `raise_for_status` exception: the
loop and the save are abandoned.  Otherwise the change check of line 189
decides whether a message is formatted, sent, and the record overwritten. -/
def run_tracking_go (now : String) (fetch : String → HttpResult)
    (deliver : String → SendOutcome) (names : List String) :
    Nat → List String → StateMap → List (String × Bool) → PassResult
  | _, [], st, log => ⟨st, log, [], none, true⟩
  | idx, t :: rest, st, log =>
    match get_tracking_status (fetch t) with
    | .error code => ⟨st, log, t :: rest, some code, false⟩
    | .ok (status, location) =>
      if status ≠ "" ∧ (lookupRecord st t).map Record.status ≠ some status then
        let message := format_message (nicknameFor names idx t) status location now
        run_tracking_go now fetch deliver names (idx + 1) rest
          (setRecord st t ⟨status, location, now⟩)
          (log ++ [(message, send_telegram_ok (deliver message))])
      else
        run_tracking_go now fetch deliver names (idx + 1) rest st log

/-- `run_tracking` (src/main.py lines 174-198), with the environment —
clock, HTTP layer, Telegram transport, configuration — passed explicitly. -/
def run_tracking (now : String) (fetch : String → HttpResult)
    (deliver : String → SendOutcome) (names trackings : List String)
    (st : StateMap) : PassResult :=
  run_tracking_go now fetch deliver names 0 trackings st []

/-- Python's `f"{s:<w}"`: pad on the right with spaces up to width `w`. -/
def leftAlign (s : String) (w : Nat) : String :=
  s ++ String.mk (List.replicate (w - s.length) ' ')

/-- The column-header line of the status table (src/main.py line 154). -/
def headerLine : String :=
  leftAlign "Nickname" 20 ++ " | " ++ leftAlign "Status" 25 ++ " | " ++
    leftAlign "Location" 25 ++ " | Updated"

/-- The separator rule `"-" * 80` (src/main.py lines 155 and 167). -/
def ruleLine : String := String.mk (List.replicate 80 '-')

/-- One row of the status table (src/main.py lines 156-166): nickname,
status, location padded to fixed widths, then the timestamp; each value
defaulted when no record exists for the tracking number. -/
def statusRow (names : List String) (st : StateMap) (idx : Nat) (t : String) : String :=
  leftAlign (nicknameFor names idx t) 20 ++ " | " ++
    leftAlign (((lookupRecord st t).map Record.status).getD "No info") 25 ++ " | " ++
    leftAlign (((lookupRecord st t).map Record.location).getD "—") 25 ++ " | " ++
    ((lookupRecord st t).map Record.timestamp).getD "—"

/-- The row loop of `format_status_table`: one row per configured tracking
number, in configuration order. -/
def tableRows (names : List String) (st : StateMap) : Nat → List String → List String
  | _, [] => []
  | idx, t :: rest => statusRow names st idx t :: tableRows names st (idx + 1) rest

/-- `format_status_table` (src/main.py lines 151-168). -/
def format_status_table (trackings names : List String) (st : StateMap) : String :=
  String.intercalate "\n"
    (("📊 UPS Tracking Status Table\n" :: headerLine :: ruleLine ::
        tableRows names st 0 trackings) ++ [ruleLine])

/-- One Telegram update object, reduced to the `update_id` field that
`start_polling` reads (src/main.py line 253). -/
structure TgUpdate where
  update_id : Nat
deriving DecidableEq, Repr

/-- The offset actually attached to a `getUpdates` request (src/main.py lines
204-207): `if offset:` drops a missing — or zero, by Python truthiness —
cursor. -/
def requestOffset : Option Nat → Option Nat
  | none => none
  | some n => if n = 0 then none else some n

/-- The cursor after the loop `for update in updates: last_update_id =
update["update_id"] + 1; handle_message(update)` (src/main.py lines 252-254)
has consumed one batch. -/
def runBatch : Option Nat → List TgUpdate → Option Nat
  | c, [] => c
  | _, u :: rest => runBatch (some (u.update_id + 1)) rest

/-- The observable protocol of `start_polling` (src/main.py lines 248-255)
over a finite prefix of batches: for each `getUpdates` call, the offset it
carries and the updates already handed to `handle_message` when it is
issued.  Each batch is handled in full between its own request and the
next. -/
def requestLog : Option Nat → List TgUpdate → List (List TgUpdate) →
    List (Option Nat × List TgUpdate)
  | _, _, [] => []
  | c, handled, b :: bs =>
    (requestOffset c, handled) :: requestLog (runBatch c b) (handled ++ b) bs

/- Helper lemmas -/

lemma intercalate_singleton (s a : String) : String.intercalate s [a] = a := rfl

lemma truthyList_eq_nil {o : Option String} : truthyList o = [] ↔ present o = false := by
  cases o with
  | none => simp [truthyList, present]
  | some s => by_cases h : s = "" <;> simp [truthyList, present, h]

lemma truthyList_of_present {o : Option String} (h : present o = true) :
    truthyList o = [o.getD ""] := by
  cases o with
  | none => simp [present] at h
  | some s =>
    simp [present] at h
    simp [truthyList, h]

lemma locFromRest_eq (acts : List Activity) (si : ShipmentInfo) :
    locFromRest acts si =
      ((acts.map fun a => extract_location a (some si)).filter
        fun l => l ≠ "No location found").headD "No location found" := by
  induction acts with
  | nil => rfl
  | cons a rest ih =>
    by_cases h : extract_location a (some si) = "No location found"
    · simp [locFromRest, h, ih]
    · simp [locFromRest, h]

/-- C6: a fetched response whose body lacks the `trackResponse` wrapper is
turned into the sentinel snapshot, on the success side of the result (the
fetch does not fail). -/
theorem get_tracking_status_no_wrapper (data : TrackData)
    (h : data.trackResponse = none) :
    get_tracking_status (.ok data) = .ok ("No tracking info", "No location found") := by
  simp [get_tracking_status, h]

theorem get_tracking_status_no_wrapper_witness :
    (TrackData.mk none).trackResponse = none ∧
      get_tracking_status (.ok (TrackData.mk none)) =
        .ok ("No tracking info", "No location found") :=
  ⟨rfl, get_tracking_status_no_wrapper ⟨none⟩ rfl⟩

/-- C5: whenever the reduction of a wrapped payload raises (missing keys,
wrong shape — any `.error` of `reduceTrack`), the fetch still succeeds and
reports the snapshot `("Error parsing: <cause>", "No location found")`. -/
theorem get_tracking_status_parse_error (data : TrackData) (tr : TrackResponse)
    (e : String) (hw : data.trackResponse = some tr) (he : reduceTrack tr = .error e) :
    get_tracking_status (.ok data) =
      .ok ("Error parsing: " ++ e, "No location found") := by
  simp [get_tracking_status, hw, he]

theorem get_tracking_status_parse_error_witness :
    (TrackData.mk (some ⟨none⟩)).trackResponse = some ⟨none⟩ ∧
      reduceTrack ⟨none⟩ = .error "'shipment'" ∧
      get_tracking_status (.ok ⟨some ⟨none⟩⟩) =
        .ok ("Error parsing: 'shipment'", "No location found") :=
  ⟨rfl, rfl, get_tracking_status_parse_error ⟨some ⟨none⟩⟩ ⟨none⟩ "'shipment'" rfl rfl⟩

/-- C3: on a payload where the nested indexing succeeds, the fetch takes the
first event of the first package of the first shipment entry as the latest
event and returns its status description verbatim; the location is
`extract_location` on that event, and when that is the sentinel, the first
non-sentinel extraction over the remaining events in their given order — the
sentinel if every one of them is the sentinel. -/
theorem get_tracking_status_latest_event (si : ShipmentInfo)
    (ships : List ShipmentInfo) (p0 : Package) (packs : List Package)
    (latest : Activity) (rest : List Activity) (sb : StatusBlock) (desc : String)
    (hp : si.package = some (p0 :: packs)) (ha : p0.activity = some (latest :: rest))
    (hs : latest.status = some sb) (hd : sb.description = some desc) :
    get_tracking_status (.ok ⟨some ⟨some (si :: ships)⟩⟩) =
      .ok (desc,
        if extract_location latest (some si) = "No location found" then
          ((rest.map fun a => extract_location a (some si)).filter
            fun l => l ≠ "No location found").headD "No location found"
        else extract_location latest (some si)) := by
  simp only [get_tracking_status, reduceTrack, hp, ha, hs, hd, resolveLocation,
    locFromRest_eq]

/-- Sample event with a full direct address, used by concrete witnesses. -/
def sampleActivity : Activity :=
  ⟨some ⟨some ⟨some "Toronto", some "ON", some "CA"⟩, none, none⟩,
    some ⟨some "Delivered"⟩⟩

/-- Sample shipment entry holding just `sampleActivity`. -/
def sampleShipment : ShipmentInfo := ⟨some [⟨some [sampleActivity]⟩], none, none⟩

/-- Sample well-formed tracking payload. -/
def sampleData : TrackData := ⟨some ⟨some [sampleShipment]⟩⟩

theorem get_tracking_status_latest_event_witness :
    sampleShipment.package = some [Package.mk (some [sampleActivity])] ∧
    (Package.mk (some [sampleActivity])).activity = some [sampleActivity] ∧
    sampleActivity.status = some (StatusBlock.mk (some "Delivered")) ∧
    (StatusBlock.mk (some "Delivered")).description = some "Delivered" ∧
    get_tracking_status (.ok ⟨some ⟨some [sampleShipment]⟩⟩) =
      .ok ("Delivered",
        if extract_location sampleActivity (some sampleShipment) = "No location found"
        then ((([] : List Activity).map fun a =>
            extract_location a (some sampleShipment)).filter
            fun l => l ≠ "No location found").headD "No location found"
        else extract_location sampleActivity (some sampleShipment)) :=
  ⟨rfl, rfl, rfl, rfl,
    get_tracking_status_latest_event sampleShipment [] _ [] sampleActivity []
      _ "Delivered" rfl rfl rfl rfl⟩

/-- C4: `extract_location` computes exactly the ordered fallback chain as the
specification words it — present address fields joined with `", "`, else the
facility description, else the raw code, else the shipment origin address,
else the destination address, else the sentinel (`extractLocationSpec` is
written from those words; `extract_location` from the source). -/
theorem extract_location_follows_spec (act : Activity) (sh : Option ShipmentInfo) :
    extract_location act sh = extractLocationSpec act sh := by
  unfold extract_location extractLocationSpec
  cases h0 : addrParts ((act.activityLocation.getD emptyActivityLocation).address.getD
      emptyAddress) with
  | cons a l => simp [h0]
  | nil =>
    simp only [h0, List.isEmpty_nil, if_true, ne_eq, not_true_eq_false, if_false,
      List.isEmpty_iff]
    cases hdesc : present ((act.activityLocation.getD
        emptyActivityLocation).locationTypeDescription) with
    | true =>
      rw [truthyList_of_present hdesc]
      simp [hdesc, intercalate_singleton]
    | false =>
      rw [truthyList_eq_nil.mpr hdesc]
      simp only [hdesc, List.isEmpty_nil, if_true, Bool.false_eq_true, if_false]
      cases hcode : present ((act.activityLocation.getD
          emptyActivityLocation).code) with
      | true =>
        rw [truthyList_of_present hcode]
        simp [hcode, intercalate_singleton]
      | false =>
        rw [truthyList_eq_nil.mpr hcode]
        simp only [hcode, List.isEmpty_nil, if_true, Bool.false_eq_true, if_false]
        cases sh with
        | none => simp [intercalate_singleton]
        | some shv =>
          cases hfrom : addrParts ((shv.shipFrom.bind ShipNode.address).getD
              emptyAddress) with
          | cons a l => simp [hfrom]
          | nil =>
            simp only [hfrom, List.isEmpty_nil, if_true, ne_eq, not_true_eq_false,
              if_false]
            cases hto : addrParts ((shv.shipTo.bind ShipNode.address).getD
                emptyAddress) with
            | cons a l => simp [hto]
            | nil => simp [hto, intercalate_singleton]

/- Step lemmas for the poll-pass loop -/

lemma go_nil {now : String} {fetch : String → HttpResult}
    {deliver : String → SendOutcome} {names : List String} (idx : Nat)
    (st : StateMap) (log : List (String × Bool)) :
    run_tracking_go now fetch deliver names idx [] st log = ⟨st, log, [], none, true⟩ :=
  rfl

lemma go_err {now : String} {fetch : String → HttpResult}
    {deliver : String → SendOutcome} {names : List String} {t : String} {code : Nat}
    (hfetch : get_tracking_status (fetch t) = .error code) (idx : Nat)
    (rest : List String) (st : StateMap) (log : List (String × Bool)) :
    run_tracking_go now fetch deliver names idx (t :: rest) st log =
      ⟨st, log, t :: rest, some code, false⟩ := by
  simp only [run_tracking_go]
  rw [hfetch]

lemma go_changed {now : String} {fetch : String → HttpResult}
    {deliver : String → SendOutcome} {names : List String} {t status location : String}
    {st : StateMap}
    (hfetch : get_tracking_status (fetch t) = .ok (status, location))
    (hcond : status ≠ "" ∧ (lookupRecord st t).map Record.status ≠ some status)
    (idx : Nat) (rest : List String) (log : List (String × Bool)) :
    run_tracking_go now fetch deliver names idx (t :: rest) st log =
      run_tracking_go now fetch deliver names (idx + 1) rest
        (setRecord st t ⟨status, location, now⟩)
        (log ++ [(format_message (nicknameFor names idx t) status location now,
          send_telegram_ok (deliver
            (format_message (nicknameFor names idx t) status location now)))]) := by
  simp only [run_tracking_go]
  rw [hfetch]
  exact if_pos hcond

lemma go_unchanged {now : String} {fetch : String → HttpResult}
    {deliver : String → SendOutcome} {names : List String} {t status location : String}
    {st : StateMap}
    (hfetch : get_tracking_status (fetch t) = .ok (status, location))
    (hcond : ¬(status ≠ "" ∧ (lookupRecord st t).map Record.status ≠ some status))
    (idx : Nat) (rest : List String) (log : List (String × Bool)) :
    run_tracking_go now fetch deliver names idx (t :: rest) st log =
      run_tracking_go now fetch deliver names (idx + 1) rest st log := by
  simp only [run_tracking_go]
  rw [hfetch]
  exact if_neg hcond

lemma go_log_extends {now : String} {fetch : String → HttpResult}
    {deliver : String → SendOutcome} {names : List String} :
    ∀ (trackings : List String) (idx : Nat) (st : StateMap) (log : List (String × Bool)),
    ∃ tail, (run_tracking_go now fetch deliver names idx trackings st log).log = log ++ tail := by
  intro trackings
  induction trackings with
  | nil => exact fun idx st log => ⟨[], by simp [go_nil]⟩
  | cons t rest ih =>
    intro idx st log
    cases hf : get_tracking_status (fetch t) with
    | error code => exact ⟨[], by simp [go_err hf]⟩
    | ok p =>
      obtain ⟨status, location⟩ := p
      by_cases hcond : status ≠ "" ∧ (lookupRecord st t).map Record.status ≠ some status
      · rw [go_changed hf hcond idx rest log]
        obtain ⟨tail, htail⟩ := ih (idx + 1) (setRecord st t ⟨status, location, now⟩)
          (log ++ [(format_message (nicknameFor names idx t) status location now,
            send_telegram_ok (deliver
              (format_message (nicknameFor names idx t) status location now)))])
        exact ⟨_, by rw [htail, List.append_assoc]⟩
      · rw [go_unchanged hf hcond idx rest log]
        exact ih (idx + 1) st log

lemma lookup_setRecord_self : ∀ (st : StateMap) (k : String) (r : Record),
    lookupRecord (setRecord st k r) k = some r := by
  intro st k r
  induction st with
  | nil => simp [setRecord, lookupRecord]
  | cons kv rest ih =>
    obtain ⟨k', v'⟩ := kv
    by_cases h : k' = k
    · simp [setRecord, h, lookupRecord]
    · simp [setRecord, h, lookupRecord, ih]

lemma lookup_setRecord_ne : ∀ (st : StateMap) (k : String) (r : Record) (q : String),
    q ≠ k → lookupRecord (setRecord st k r) q = lookupRecord st q := by
  intro st k r q hqk
  induction st with
  | nil => simp [setRecord, lookupRecord, Ne.symm hqk]
  | cons kv rest ih =>
    obtain ⟨k', v'⟩ := kv
    by_cases h : k' = k
    · subst h
      simp [setRecord, lookupRecord, Ne.symm hqk]
    · simp only [setRecord, h, if_false, lookupRecord]
      by_cases h2 : k' = q <;> simp [h2, ih]

lemma go_frame {now : String} {fetch : String → HttpResult}
    {deliver : String → SendOutcome} {names : List String} :
    ∀ (trackings : List String) (idx : Nat) (st : StateMap) (log : List (String × Bool))
      (k : String), k ∉ trackings →
    lookupRecord (run_tracking_go now fetch deliver names idx trackings st log).state k =
      lookupRecord st k := by
  intro trackings
  induction trackings with
  | nil => intro idx st log k _; rfl
  | cons t rest ih =>
    intro idx st log k hk
    have hkt : k ≠ t := fun h => hk (h ▸ List.mem_cons_self t rest)
    have hkr : k ∉ rest := fun h => hk (List.mem_cons_of_mem t h)
    cases hf : get_tracking_status (fetch t) with
    | error code => simp [go_err hf]
    | ok p =>
      obtain ⟨status, location⟩ := p
      by_cases hcond : status ≠ "" ∧ (lookupRecord st t).map Record.status ≠ some status
      · rw [go_changed hf hcond idx rest log,
          ih _ _ _ k hkr, lookup_setRecord_ne st t _ k hkt]
      · rw [go_unchanged hf hcond idx rest log, ih _ _ _ k hkr]

/-- Whether the change check of src/main.py line 189 sees the freshly fetched
status as identical to the stored one for `t`. -/
def statusUnchanged (fetch : String → HttpResult) (st : StateMap) (t : String) : Bool :=
  match get_tracking_status (fetch t) with
  | .ok (s, _) => (lookupRecord st t).map Record.status == some s
  | .error _ => false

lemma go_all_unchanged {now : String} {fetch : String → HttpResult}
    {deliver : String → SendOutcome} {names : List String} :
    ∀ (trackings : List String) (idx : Nat) (st : StateMap) (log : List (String × Bool)),
    (∀ t ∈ trackings, statusUnchanged fetch st t = true) →
    run_tracking_go now fetch deliver names idx trackings st log = ⟨st, log, [], none, true⟩ := by
  intro trackings
  induction trackings with
  | nil => intro idx st log _; rfl
  | cons t rest ih =>
    intro idx st log h
    have ht := h t (List.mem_cons_self t rest)
    cases hf : get_tracking_status (fetch t) with
    | error code => simp [statusUnchanged, hf] at ht
    | ok p =>
      obtain ⟨status, location⟩ := p
      have hst : (lookupRecord st t).map Record.status = some status := by
        simpa [statusUnchanged, hf] using ht
      have hcond : ¬(status ≠ "" ∧ (lookupRecord st t).map Record.status ≠ some status) := by
        simp [hst]
      rw [go_unchanged hf hcond idx rest log]
      exact ih (idx + 1) st log (fun s hs => h s (List.mem_cons_of_mem t hs))

lemma get_ok_of_success (r : HttpResult) (h : r.isSuccess = true) :
    ∃ p, get_tracking_status r = .ok p := by
  cases r with
  | err code => simp [HttpResult.isSuccess] at h
  | ok data =>
    cases hd : data.trackResponse with
    | none =>
      exact ⟨("No tracking info", "No location found"), by simp [get_tracking_status, hd]⟩
    | some tr =>
      cases hr : reduceTrack tr with
      | ok p => exact ⟨p, by simp [get_tracking_status, hd, hr]⟩
      | error e =>
        exact ⟨("Error parsing: " ++ e, "No location found"),
          by simp [get_tracking_status, hd, hr]⟩

lemma go_completes {now : String} {fetch : String → HttpResult}
    {deliver : String → SendOutcome} {names : List String} :
    ∀ (trackings : List String) (idx : Nat) (st : StateMap) (log : List (String × Bool)),
    (∀ t ∈ trackings, (fetch t).isSuccess = true) →
    (run_tracking_go now fetch deliver names idx trackings st log).remaining = [] ∧
    (run_tracking_go now fetch deliver names idx trackings st log).saved = true ∧
    (run_tracking_go now fetch deliver names idx trackings st log).abortCode = none := by
  intro trackings
  induction trackings with
  | nil => intro idx st log _; exact ⟨rfl, rfl, rfl⟩
  | cons t rest ih =>
    intro idx st log h
    obtain ⟨⟨status, location⟩, hf⟩ :=
      get_ok_of_success (fetch t) (h t (List.mem_cons_self t rest))
    have hrest : ∀ s ∈ rest, (fetch s).isSuccess = true :=
      fun s hs => h s (List.mem_cons_of_mem t hs)
    by_cases hcond : status ≠ "" ∧ (lookupRecord st t).map Record.status ≠ some status
    · rw [go_changed hf hcond idx rest log]
      exact ih _ _ _ hrest
    · rw [go_unchanged hf hcond idx rest log]
      exact ih _ _ _ hrest

lemma go_aborts {now : String} {fetch : String → HttpResult}
    {deliver : String → SendOutcome} {names : List String} {t : String} {code : Nat} :
    ∀ (pre : List String) (post : List String) (idx : Nat) (st : StateMap)
      (log : List (String × Bool)),
    (∀ s ∈ pre, (fetch s).isSuccess = true) → fetch t = .err code →
    (run_tracking_go now fetch deliver names idx (pre ++ t :: post) st log).remaining
        = t :: post ∧
    (run_tracking_go now fetch deliver names idx (pre ++ t :: post) st log).saved = false ∧
    (run_tracking_go now fetch deliver names idx (pre ++ t :: post) st log).abortCode
        = some code := by
  intro pre
  induction pre with
  | nil =>
    intro post idx st log _ hft
    have hf : get_tracking_status (fetch t) = .error code := by rw [hft]; rfl
    simp [go_err hf]
  | cons s pre' ih =>
    intro post idx st log h hft
    obtain ⟨⟨status, location⟩, hf⟩ :=
      get_ok_of_success (fetch s) (h s (List.mem_cons_self s pre'))
    have hpre' : ∀ x ∈ pre', (fetch x).isSuccess = true :=
      fun x hx => h x (List.mem_cons_of_mem s hx)
    by_cases hcond : status ≠ "" ∧ (lookupRecord st s).map Record.status ≠ some status
    · rw [List.cons_append, go_changed hf hcond idx (pre' ++ t :: post) log]
      exact ih _ _ _ _ hpre' hft
    · rw [List.cons_append, go_unchanged hf hcond idx (pre' ++ t :: post) log]
      exact ih _ _ _ _ hpre' hft

/-- A payload whose latest event carries an empty status description. -/
def emptyStatusData : TrackData :=
  ⟨some ⟨some [⟨some [⟨some [⟨none, some ⟨some ""⟩⟩]⟩], none, none⟩]⟩⟩

/-- C1 (counterexample): a shipment with no stored record whose first fetched
status is the empty string gets no notification and no record — refuting the
claim that the first observed status for a new shipment always notifies. -/
theorem run_tracking_first_empty_status_no_notify :
    lookupRecord ([] : StateMap) "1Z" = none ∧
    get_tracking_status (.ok emptyStatusData) = .ok ("", "No location found") ∧
    (run_tracking "t0" (fun _ => .ok emptyStatusData)
        (fun _ => .response 200) [] ["1Z"] []).log = [] ∧
    (run_tracking "t0" (fun _ => .ok emptyStatusData)
        (fun _ => .response 200) [] ["1Z"] []).state = [] :=
  ⟨rfl, rfl, rfl, rfl⟩

/-- C1 (amended): in a pass, a notification is dispatched for a shipment if
and only if the freshly fetched status is non-empty AND differs by exact
string comparison from the stored record's status, an absent record counting
as never-equal — so for a new shipment the first observed status notifies
exactly when it is non-empty. -/
theorem run_tracking_notify_iff (now : String) (fetch : String → HttpResult)
    (deliver : String → SendOutcome) (names : List String) (t : String)
    (st : StateMap) (status location : String)
    (hfetch : get_tracking_status (fetch t) = .ok (status, location)) :
    (((run_tracking now fetch deliver names [t] st).log ≠ []) ↔
      (status ≠ "" ∧ (lookupRecord st t).map Record.status ≠ some status))
    ∧ (lookupRecord st t = none →
      (((run_tracking now fetch deliver names [t] st).log ≠ []) ↔ status ≠ "")) := by
  have hiff : ((run_tracking now fetch deliver names [t] st).log ≠ []) ↔
      (status ≠ "" ∧ (lookupRecord st t).map Record.status ≠ some status) := by
    by_cases hcond : status ≠ "" ∧ (lookupRecord st t).map Record.status ≠ some status
    · unfold run_tracking
      rw [go_changed hfetch hcond 0 [] [], go_nil]
      simpa using hcond
    · unfold run_tracking
      rw [go_unchanged hfetch hcond 0 [] [], go_nil]
      simpa using hcond
  refine ⟨hiff, fun hnone => ?_⟩
  rw [hiff]
  exact ⟨fun h => h.1, fun h => ⟨h, by simp [hnone]⟩⟩

theorem run_tracking_notify_iff_witness :
    get_tracking_status (HttpResult.ok sampleData) = .ok ("Delivered", "Toronto, ON, CA") ∧
    ((((run_tracking "t0" (fun _ => .ok sampleData) (fun _ => .response 200)
          [] ["1Z999"] []).log ≠ []) ↔
        ("Delivered" ≠ "" ∧
          (lookupRecord ([] : StateMap) "1Z999").map Record.status ≠ some "Delivered"))
      ∧ (lookupRecord ([] : StateMap) "1Z999" = none →
        (((run_tracking "t0" (fun _ => .ok sampleData) (fun _ => .response 200)
            [] ["1Z999"] []).log ≠ []) ↔ "Delivered" ≠ ""))) :=
  ⟨rfl, run_tracking_notify_iff "t0" (fun _ => .ok sampleData) (fun _ => .response 200)
    [] "1Z999" [] "Delivered" "Toronto, ON, CA" rfl⟩

/-- C2 (counterexample): with two configured shipments, an HTTP-layer failure
on the first one aborts the pass — the second shipment is never evaluated and
the state store is not persisted. -/
theorem run_tracking_http_abort_cex :
    (run_tracking "t0" (fun t => if t = "A" then .err 500 else .ok sampleData)
        (fun _ => .response 200) [] ["A", "B"] []).saved = false ∧
    (run_tracking "t0" (fun t => if t = "A" then .err 500 else .ok sampleData)
        (fun _ => .response 200) [] ["A", "B"] []).remaining = ["A", "B"] ∧
    (run_tracking "t0" (fun t => if t = "A" then .err 500 else .ok sampleData)
        (fun _ => .response 200) [] ["A", "B"] []).abortCode = some 500 :=
  ⟨rfl, rfl, rfl⟩

/-- C2 (amended): an HTTP non-success on one shipment's fetch propagates
uncaught and aborts the pass from that shipment on — the failing shipment and
all later ones are not evaluated and the store is not persisted; only when
every fetch succeeds at the HTTP layer does the pass evaluate everything and
persist (payload-level failures never abort, they become status strings). -/
theorem run_tracking_abort_semantics (now : String) (fetch : String → HttpResult)
    (deliver : String → SendOutcome) (names : List String) :
    (∀ (trackings : List String) (st : StateMap),
      (∀ t ∈ trackings, (fetch t).isSuccess = true) →
      (run_tracking now fetch deliver names trackings st).remaining = [] ∧
      (run_tracking now fetch deliver names trackings st).saved = true)
    ∧ (∀ (pre post : List String) (t : String) (code : Nat) (st : StateMap),
      (∀ s ∈ pre, (fetch s).isSuccess = true) → fetch t = .err code →
      (run_tracking now fetch deliver names (pre ++ t :: post) st).remaining = t :: post ∧
      (run_tracking now fetch deliver names (pre ++ t :: post) st).saved = false ∧
      (run_tracking now fetch deliver names (pre ++ t :: post) st).abortCode = some code) := by
  constructor
  · intro trackings st h
    obtain ⟨h1, h2, _⟩ := go_completes trackings 0 st [] h
    exact ⟨h1, h2⟩
  · intro pre post t code st h hft
    exact go_aborts pre post 0 st [] h hft

theorem run_tracking_abort_semantics_witness :
    (∀ t ∈ (["C"] : List String),
      ((fun t => if t = "A" then HttpResult.err 500 else .ok sampleData) t).isSuccess = true) ∧
    ((run_tracking "t0" (fun t => if t = "A" then .err 500 else .ok sampleData)
        (fun _ => .response 200) [] ["C"] []).remaining = [] ∧
      (run_tracking "t0" (fun t => if t = "A" then .err 500 else .ok sampleData)
        (fun _ => .response 200) [] ["C"] []).saved = true) ∧
    ((fun t => if t = "A" then HttpResult.err 500 else .ok sampleData) "A" = .err 500) ∧
    ((run_tracking "t0" (fun t => if t = "A" then .err 500 else .ok sampleData)
        (fun _ => .response 200) [] ["A", "B"] []).remaining = ["B"].cons "A" ∧
      (run_tracking "t0" (fun t => if t = "A" then .err 500 else .ok sampleData)
        (fun _ => .response 200) [] ["A", "B"] []).saved = false ∧
      (run_tracking "t0" (fun t => if t = "A" then .err 500 else .ok sampleData)
        (fun _ => .response 200) [] ["A", "B"] []).abortCode = some 500) :=
  ⟨by decide,
    (run_tracking_abort_semantics "t0" _ (fun _ => .response 200) []).1 ["C"] [] (by decide),
    rfl,
    (run_tracking_abort_semantics "t0" _ (fun _ => .response 200) []).2 [] ["B"] "A" 500 []
      (by decide) rfl⟩

/-- C7: when the freshly fetched status equals the stored record's status,
the shipment's evaluation is a no-op — nothing is appended to the
notification log and the state is passed on unchanged — and, as long as the
shipment does not recur later in the pass, its persisted record (timestamp
included) is exactly the one it had before the pass. -/
theorem run_tracking_unchanged_frame (now : String) (fetch : String → HttpResult)
    (deliver : String → SendOutcome) (names : List String) (idx : Nat)
    (t : String) (rest : List String) (st : StateMap) (log : List (String × Bool))
    (status location : String)
    (hfetch : get_tracking_status (fetch t) = .ok (status, location))
    (hstored : (lookupRecord st t).map Record.status = some status) :
    (run_tracking_go now fetch deliver names idx (t :: rest) st log =
      run_tracking_go now fetch deliver names (idx + 1) rest st log)
    ∧ (t ∉ rest →
      lookupRecord (run_tracking_go now fetch deliver names idx (t :: rest) st log).state t
        = lookupRecord st t) := by
  have hcond : ¬(status ≠ "" ∧ (lookupRecord st t).map Record.status ≠ some status) := by
    simp [hstored]
  have hstep := @go_unchanged now fetch deliver names t status location st hfetch hcond idx rest log
  refine ⟨hstep, fun ht => ?_⟩
  rw [hstep, go_frame rest (idx + 1) st log t ht]

theorem run_tracking_unchanged_frame_witness :
    get_tracking_status (HttpResult.ok sampleData) = .ok ("Delivered", "Toronto, ON, CA") ∧
    (lookupRecord [("1Z", ⟨"Delivered", "Toronto, ON, CA", "t0"⟩)] "1Z").map Record.status
      = some "Delivered" ∧
    ((run_tracking_go "t1" (fun _ => .ok sampleData) (fun _ => .response 200) [] 0
        ["1Z"] [("1Z", ⟨"Delivered", "Toronto, ON, CA", "t0"⟩)] [] =
      run_tracking_go "t1" (fun _ => .ok sampleData) (fun _ => .response 200) [] 1
        [] [("1Z", ⟨"Delivered", "Toronto, ON, CA", "t0"⟩)] [])
    ∧ ("1Z" ∉ ([] : List String) →
      lookupRecord (run_tracking_go "t1" (fun _ => .ok sampleData)
          (fun _ => .response 200) [] 0 ["1Z"]
          [("1Z", ⟨"Delivered", "Toronto, ON, CA", "t0"⟩)] []).state "1Z"
        = lookupRecord [("1Z", ⟨"Delivered", "Toronto, ON, CA", "t0"⟩)] "1Z")) :=
  ⟨rfl, rfl,
    run_tracking_unchanged_frame "t1" (fun _ => .ok sampleData) (fun _ => .response 200)
      [] 0 "1Z" [] [("1Z", ⟨"Delivered", "Toronto, ON, CA", "t0"⟩)] []
      "Delivered" "Toronto, ON, CA" rfl rfl⟩

/-- C10: when a change is detected for the first shipment of a pass, a
delivery is attempted (the head of the log carries whatever outcome the
transport produced — including failure) and the record is overwritten with
the fresh snapshot regardless of that outcome; a later pass observing the
same status therefore treats the shipment as unchanged and does not
re-notify. -/
theorem run_tracking_update_despite_delivery_failure
    (now now2 : String) (fetch : String → HttpResult)
    (deliver deliver2 : String → SendOutcome) (names : List String)
    (t : String) (rest : List String) (st : StateMap) (status location : String)
    (hrest : t ∉ rest)
    (hfetch : get_tracking_status (fetch t) = .ok (status, location))
    (hne : status ≠ "")
    (hdiff : (lookupRecord st t).map Record.status ≠ some status) :
    ((run_tracking now fetch deliver names (t :: rest) st).log.head? =
      some (format_message (nicknameFor names 0 t) status location now,
        send_telegram_ok (deliver (format_message (nicknameFor names 0 t) status location now))))
    ∧ lookupRecord (run_tracking now fetch deliver names (t :: rest) st).state t =
        some ⟨status, location, now⟩
    ∧ (run_tracking_go now2 fetch deliver2 names 0 (t :: rest)
          (run_tracking now fetch deliver names (t :: rest) st).state [] =
        run_tracking_go now2 fetch deliver2 names 1 rest
          (run_tracking now fetch deliver names (t :: rest) st).state []) := by
  have hcond : status ≠ "" ∧ (lookupRecord st t).map Record.status ≠ some status :=
    ⟨hne, hdiff⟩
  have hstep := @go_changed now fetch deliver names t status location st hfetch hcond 0 rest []
  have hstate : lookupRecord (run_tracking now fetch deliver names (t :: rest) st).state t =
      some ⟨status, location, now⟩ := by
    unfold run_tracking
    rw [hstep, go_frame rest 1 _ _ t hrest, lookup_setRecord_self]
  refine ⟨?_, hstate, ?_⟩
  · unfold run_tracking
    rw [hstep]
    obtain ⟨tail, htail⟩ := @go_log_extends now fetch deliver names rest 1
      (setRecord st t ⟨status, location, now⟩)
      ([] ++ [(format_message (nicknameFor names 0 t) status location now,
        send_telegram_ok (deliver (format_message (nicknameFor names 0 t) status location now)))])
    rw [htail]
    simp
  · have hstored2 : (lookupRecord
        (run_tracking now fetch deliver names (t :: rest) st).state t).map Record.status
        = some status := by
      rw [hstate]
      rfl
    have hcond2 : ¬(status ≠ "" ∧ (lookupRecord
        (run_tracking now fetch deliver names (t :: rest) st).state t).map Record.status
        ≠ some status) := by
      simp [hstored2]
    exact go_unchanged hfetch hcond2 0 rest []

theorem run_tracking_update_despite_delivery_failure_witness :
    ("1Z999" ∉ ([] : List String)) ∧
    get_tracking_status (HttpResult.ok sampleData) = .ok ("Delivered", "Toronto, ON, CA") ∧
    ("Delivered" ≠ "") ∧
    ((lookupRecord ([] : StateMap) "1Z999").map Record.status ≠ some "Delivered") ∧
    (((run_tracking "t0" (fun _ => .ok sampleData) (fun _ => .exn "boom") []
          ["1Z999"] []).log.head? =
      some (format_message (nicknameFor [] 0 "1Z999") "Delivered" "Toronto, ON, CA" "t0",
        send_telegram_ok ((fun _ => SendOutcome.exn "boom")
          (format_message (nicknameFor [] 0 "1Z999") "Delivered" "Toronto, ON, CA" "t0"))))
    ∧ lookupRecord (run_tracking "t0" (fun _ => .ok sampleData) (fun _ => .exn "boom") []
          ["1Z999"] []).state "1Z999" = some ⟨"Delivered", "Toronto, ON, CA", "t0"⟩
    ∧ (run_tracking_go "t1" (fun _ => .ok sampleData) (fun _ => .response 200) [] 0 ["1Z999"]
          (run_tracking "t0" (fun _ => .ok sampleData) (fun _ => .exn "boom") []
            ["1Z999"] []).state [] =
        run_tracking_go "t1" (fun _ => .ok sampleData) (fun _ => .response 200) [] 1 []
          (run_tracking "t0" (fun _ => .ok sampleData) (fun _ => .exn "boom") []
            ["1Z999"] []).state [])) :=
  ⟨by decide, rfl, by decide, by decide,
    run_tracking_update_despite_delivery_failure "t0" "t1" (fun _ => .ok sampleData)
      (fun _ => .exn "boom") (fun _ => .response 200) [] "1Z999" [] []
      "Delivered" "Toronto, ON, CA" (by decide) rfl (by decide) (by decide)⟩

/- Table lemmas -/

lemma tableRows_length : ∀ (trackings names : List String) (st : StateMap) (idx : Nat),
    (tableRows names st idx trackings).length = trackings.length := by
  intro trackings
  induction trackings with
  | nil => intros; rfl
  | cons t rest ih => intro names st idx; simp [tableRows, ih]

lemma tableRows_get? : ∀ (trackings : List String) (i idx : Nat) (t : String)
    (names : List String) (st : StateMap), trackings.get? i = some t →
    (tableRows names st idx trackings).get? i = some (statusRow names st (idx + i) t) := by
  intro trackings
  induction trackings with
  | nil => intro i idx t names st h; simp at h
  | cons s rest ih =>
    intro i idx t names st h
    cases i with
    | zero =>
      simp only [List.get?] at h
      cases h
      rfl
    | succ j =>
      simp only [List.get?] at h
      have hj := ih j (idx + 1) t names st h
      rw [show idx + (j + 1) = idx + 1 + j by omega]
      simpa [tableRows] using hj

/-- C9 (amended): the table is the title, the column header, a separator
rule, one fixed-width row per configured tracked shipment in order, and a
closing separator rule; a shipment with no persisted record renders `No info`
in the status column and the placeholder dash in the location and
updated-timestamp columns; formatting is a total function, so it never
raises. -/
theorem format_status_table_shape (trackings names : List String) (st : StateMap) :
    format_status_table trackings names st =
      String.intercalate "\n"
        (("📊 UPS Tracking Status Table\n" :: headerLine :: ruleLine ::
          tableRows names st 0 trackings) ++ [ruleLine])
    ∧ (tableRows names st 0 trackings).length = trackings.length
    ∧ (∀ i t, trackings.get? i = some t → lookupRecord st t = none →
        (tableRows names st 0 trackings).get? i =
          some (leftAlign (nicknameFor names i t) 20 ++ " | " ++
            leftAlign "No info" 25 ++ " | " ++ leftAlign "—" 25 ++ " | " ++ "—")) := by
  refine ⟨rfl, tableRows_length trackings names st 0, fun i t hget hnone => ?_⟩
  rw [tableRows_get? trackings i 0 t names st hget]
  simp [statusRow, hnone]

theorem format_status_table_shape_witness :
    (["1Z"] : List String).get? 0 = some "1Z" ∧
    lookupRecord ([] : StateMap) "1Z" = none ∧
    (tableRows [] [] 0 ["1Z"]).get? 0 =
      some (leftAlign (nicknameFor [] 0 "1Z") 20 ++ " | " ++
        leftAlign "No info" 25 ++ " | " ++ leftAlign "—" 25 ++ " | " ++ "—") :=
  ⟨rfl, rfl, (format_status_table_shape ["1Z"] [] []).2.2 0 "1Z" rfl rfl⟩

set_option maxRecDepth 10000 in
/-- C9 (counterexample): for a shipment with no persisted record the status
column renders `No info`, not the placeholder dash — the row actually
rendered differs from the all-dashes row the claim describes. -/
theorem format_status_table_missing_status_not_dash :
    tableRows [] [] 0 ["1Z"] =
      [leftAlign (nicknameFor [] 0 "1Z") 20 ++ " | " ++ leftAlign "No info" 25 ++
        " | " ++ leftAlign "—" 25 ++ " | " ++ "—"]
    ∧ statusRow [] [] 0 "1Z" ≠
      leftAlign (nicknameFor [] 0 "1Z") 20 ++ " | " ++ leftAlign "—" 25 ++
        " | " ++ leftAlign "—" 25 ++ " | " ++ "—" := by
  refine ⟨rfl, fun h => ?_⟩
  have hrow : statusRow [] [] 0 "1Z" =
      leftAlign (nicknameFor [] 0 "1Z") 20 ++ " | " ++ leftAlign "No info" 25 ++
        " | " ++ leftAlign "—" 25 ++ " | " ++ "—" := rfl
  rw [hrow] at h
  have h2 := congrArg String.data h
  simp only [String.data_append, List.append_assoc] at h2
  have h3 := List.append_cancel_left h2
  revert h3
  decide

/- Polling-loop lemmas -/

lemma runBatch_getLast_none (b : List TgUpdate) (c : Option Nat)
    (h : b.getLast? = none) : runBatch c b = c := by
  rw [List.getLast?_eq_none_iff.mp h]
  rfl

lemma runBatch_getLast_some : ∀ (b : List TgUpdate) (c : Option Nat) (w : TgUpdate),
    b.getLast? = some w → runBatch c b = some (w.update_id + 1) := by
  intro b
  induction b with
  | nil => intro c w h; simp at h
  | cons u t ih =>
    intro c w h
    cases t with
    | nil =>
      simp at h
      subst h
      rfl
    | cons v t' =>
      rw [List.getLast?_cons_cons] at h
      exact ih (some (u.update_id + 1)) w h

lemma pairwise_last_max : ∀ (b : List TgUpdate) (w : TgUpdate),
    List.Pairwise (fun x y => x.update_id < y.update_id) b → b.getLast? = some w →
    ∀ u ∈ b, u.update_id ≤ w.update_id := by
  intro b
  induction b with
  | nil => intro w _ h; simp at h
  | cons x t ih =>
    intro w hpw hlast u hu
    cases t with
    | nil =>
      simp at hlast hu
      subst hlast
      subst hu
      exact le_refl _
    | cons y t' =>
      rw [List.getLast?_cons_cons] at hlast
      rcases List.mem_cons.mp hu with rfl | hu'
      · have hw : w ∈ y :: t' := List.mem_of_mem_getLast? hlast
        exact le_of_lt ((List.pairwise_cons.mp hpw).1 w hw)
      · exact ih w (List.pairwise_cons.mp hpw).2 hlast u hu'

lemma requestLog_inv :
    ∀ (bs : List (List TgUpdate)) (c : Option Nat) (handled : List TgUpdate),
    List.Pairwise (fun u v => u.update_id < v.update_id) (handled ++ bs.flatten) →
    (∀ n, c = some n → (∀ u ∈ handled, u.update_id < n) ∧
      (∀ v ∈ bs.flatten, n ≤ v.update_id)) →
    (c = none → handled = []) →
    (∀ e ∈ requestLog c handled bs, ∀ o, e.1 = some o →
        (∀ n, c = some n → n ≤ o) ∧
        (∀ u ∈ handled ++ bs.flatten, (u.update_id < o ↔ u ∈ e.2)))
    ∧ List.Pairwise (· ≤ ·) ((requestLog c handled bs).filterMap (fun e => e.1)) := by
  intro bs
  induction bs with
  | nil =>
    intro c handled _ _ _
    refine ⟨fun e he => absurd he (List.not_mem_nil e), ?_⟩
    simp [requestLog]
  | cons b bs' ih =>
    intro c handled hpw hc hnone
    have hpwFlat : List.Pairwise (fun u v => u.update_id < v.update_id)
        (handled ++ (b ++ bs'.flatten)) := by
      have hfl : (b :: bs').flatten = b ++ bs'.flatten := by simp
      rwa [hfl] at hpw
    obtain ⟨hpwH, hpwBF, hHBF⟩ := List.pairwise_append.mp hpwFlat
    obtain ⟨hpwB, hpwF, hBF⟩ := List.pairwise_append.mp hpwBF
    -- the cursor can only move forward across one batch
    have hcmono : ∀ n, c = some n → ∃ m, runBatch c b = some m ∧ n ≤ m := by
      intro n hn
      cases hlast : b.getLast? with
      | none =>
        exact ⟨n, by rw [runBatch_getLast_none b c hlast, hn], le_refl n⟩
      | some w =>
        refine ⟨w.update_id + 1, runBatch_getLast_some b c w hlast, ?_⟩
        have hw : w ∈ b := List.mem_of_mem_getLast? hlast
        have hnw : n ≤ w.update_id := by
          refine (hc n hn).2 w ?_
          simp only [List.flatten_cons]
          exact List.mem_append.mpr (Or.inl hw)
        omega
    -- the invariant is re-established after the batch
    have hc' : ∀ m, runBatch c b = some m →
        (∀ u ∈ handled ++ b, u.update_id < m) ∧
        (∀ v ∈ bs'.flatten, m ≤ v.update_id) := by
      intro m hm
      cases hlast : b.getLast? with
      | none =>
        have hb : b = [] := List.getLast?_eq_none_iff.mp hlast
        rw [runBatch_getLast_none b c hlast] at hm
        subst hb
        constructor
        · intro u hu
          rw [List.append_nil] at hu
          exact (hc m hm).1 u hu
        · intro v hv
          refine (hc m hm).2 v ?_
          simpa using hv
      | some w =>
        rw [runBatch_getLast_some b c w hlast] at hm
        have hmw : m = w.update_id + 1 := by
          injection hm with h
          omega
        subst hmw
        have hw : w ∈ b := List.mem_of_mem_getLast? hlast
        constructor
        · intro u hu
          rcases List.mem_append.mp hu with hu1 | hu2
          · have := hHBF u hu1 w (List.mem_append.mpr (Or.inl hw))
            omega
          · have := pairwise_last_max b w hpwB hlast u hu2
            omega
        · intro v hv
          have := hBF w hw v hv
          omega
    have hnone' : runBatch c b = none → handled ++ b = [] := by
      intro hm
      cases hlast : b.getLast? with
      | some w =>
        rw [runBatch_getLast_some b c w hlast] at hm
        cases hm
      | none =>
        have hb : b = [] := List.getLast?_eq_none_iff.mp hlast
        rw [runBatch_getLast_none b c hlast] at hm
        rw [hb, List.append_nil]
        exact hnone hm
    have hpw' : List.Pairwise (fun u v => u.update_id < v.update_id)
        ((handled ++ b) ++ bs'.flatten) := by
      rw [List.append_assoc]
      exact hpwFlat
    have IH := ih (runBatch c b) (handled ++ b) hpw' hc' hnone'
    have hmemEq : ∀ u : TgUpdate,
        u ∈ handled ++ (b :: bs').flatten ↔ u ∈ (handled ++ b) ++ bs'.flatten := by
      intro u
      simp [List.flatten_cons, List.append_assoc]
    constructor
    · intro e he o ho
      rcases List.mem_cons.mp he with rfl | he'
      · -- the head entry: offset comes from the incoming cursor
        have hcx : c = some o := by
          cases c with
          | none => simp [requestOffset] at ho
          | some n =>
            by_cases hn : n = 0
            · simp [requestOffset, hn] at ho
            · simp only [requestOffset, hn, if_false] at ho
              exact ho
        constructor
        · intro n hn
          rw [hcx] at hn
          injection hn with hn
          omega
        · intro u hu
          constructor
          · intro hlt
            rcases List.mem_append.mp hu with h1 | h2
            · exact h1
            · have := (hc o hcx).2 u h2
              omega
          · intro hmem
            exact (hc o hcx).1 u hmem
      · have hres := (IH.1 e he' o ho)
        constructor
        · intro n hn
          obtain ⟨m, hm, hnm⟩ := hcmono n hn
          have := hres.1 m hm
          omega
        · intro u hu
          exact hres.2 u ((hmemEq u).mp hu)
    · cases hoff : requestOffset c with
      | none =>
        simp only [requestLog, List.filterMap_cons, hoff]
        exact IH.2
      | some o₀ =>
        simp only [requestLog, List.filterMap_cons, hoff]
        refine List.pairwise_cons.mpr ⟨?_, IH.2⟩
        intro o ho
        obtain ⟨e, he, heo⟩ := List.mem_filterMap.mp ho
        have hcx : c = some o₀ := by
          cases c with
          | none => simp [requestOffset] at hoff
          | some n =>
            by_cases hn : n = 0
            · simp [requestOffset, hn] at hoff
            · simp only [requestOffset, hn, if_false] at hoff
              exact hoff
        obtain ⟨m, hm, hom⟩ := hcmono o₀ hcx
        have := ((IH.1 e he o heo)).1 m hm
        omega

/-- C8: over any finite prefix of the polling loop's life, with the server
delivering updates with strictly increasing identifiers, every `getUpdates`
offset acknowledges exactly the updates already handed to `handle_message`
when the request is issued — the cursor is set past every consumed update,
and it never covers an update that has not yet been given to the handler
(at-least-once processing) — and the offsets sent are monotonically
increasing. -/
theorem start_polling_cursor_protocol (batches : List (List TgUpdate))
    (hinc : List.Pairwise (fun u v => u.update_id < v.update_id) batches.flatten) :
    (∀ e ∈ requestLog none [] batches, ∀ o, e.1 = some o →
        ∀ u ∈ batches.flatten, (u.update_id < o ↔ u ∈ e.2))
    ∧ List.Pairwise (· ≤ ·) ((requestLog none [] batches).filterMap (fun e => e.1)) := by
  have h := requestLog_inv batches none []
    (by simpa using hinc)
    (fun n hn => Option.noConfusion hn)
    (fun _ => rfl)
  exact ⟨fun e he o ho u hu => (h.1 e he o ho).2 u (by simpa using hu), h.2⟩

theorem start_polling_cursor_protocol_witness :
    List.Pairwise (fun u v => u.update_id < v.update_id)
      ([[⟨5⟩], [⟨7⟩, ⟨9⟩]] : List (List TgUpdate)).flatten ∧
    ((∀ e ∈ requestLog none [] [[⟨5⟩], [⟨7⟩, ⟨9⟩]], ∀ o, e.1 = some o →
        ∀ u ∈ ([[⟨5⟩], [⟨7⟩, ⟨9⟩]] : List (List TgUpdate)).flatten,
          (u.update_id < o ↔ u ∈ e.2))
      ∧ List.Pairwise (· ≤ ·)
        ((requestLog none [] [[⟨5⟩], [⟨7⟩, ⟨9⟩]]).filterMap (fun e => e.1))) :=
  ⟨by decide, start_polling_cursor_protocol [[⟨5⟩], [⟨7⟩, ⟨9⟩]] (by decide)⟩

end UPSTrack
